import Mathlib

/-!
Shallow embedding of the momentum-scroll controller (`src/script.js`,
class `CustomScroll`).  Real-valued quantities (positions, velocities,
pixel coordinates, timestamps in milliseconds) are modelled as rationals;
all constants of the source (`FRICTION = 0.95`, `SPRING_K = 0.15`,
`STOP_VEL = 5`, `MAX_VEL = 2000`, the rubber-band factor `0.4`) are exact
rationals, so every arithmetic step of the source is reproduced exactly.
The DOM side effects (pointer capture, CSS classes, style writes) carry no
state the algorithm reads back, so they are dropped; everything the
handlers read or write lives in the `CustomScroll` structure below.
-/

namespace Scroll

/-- Friction multiplier applied to the velocity each coasting frame
(`this.FRICTION = 0.95`). -/
def FRICTION : ℚ := 95 / 100

/-- Spring stiffness (`this.SPRING_K = 0.15`). -/
def SPRING_K : ℚ := 15 / 100

/-- Velocity magnitude below which coasting stops (`this.STOP_VEL = 5`). -/
def STOP_VEL : ℚ := 5

/-- Cap on the initial coasting speed (`this.MAX_VEL = 2000`). -/
def MAX_VEL : ℚ := 2000

/-- The four states of the controller's state machine: the source stores
them as the strings "Idle" | "Drag" | "Decel" | "Spring". -/
inductive ScrollState where
  | Idle
  | Drag
  | Decel
  | Spring
deriving DecidableEq, Repr

/-- One entry of `moveHistory`: the pointer displacement `dy` of a move
event and the elapsed time `dt` (ms) since the previous move. -/
structure MoveRec where
  dy : ℚ
  dt : ℚ
deriving DecidableEq, Repr

/-- The mutable fields of class `CustomScroll` that the algorithm reads or
writes.  `vh`/`ch` are the viewport and content heights sampled by the
constructor; `min`/`max` the scroll bounds; `pos`/`vel` the current
position and velocity; `lastY`/`lastMoveTime` the drag reference point. -/
structure CustomScroll where
  vh : ℚ
  ch : ℚ
  min : ℚ
  max : ℚ
  pos : ℚ
  vel : ℚ
  springTarget : ℚ
  state : ScrollState
  lastY : ℚ
  lastMoveTime : ℚ
  moveHistory : List MoveRec
deriving DecidableEq, Repr

/-- The constructor: `min = 0`, `max = Math.max(ch - vh, 0)`, `pos = 0`,
`vel = 0`, `springTarget = 0`, `state = "Idle"`, empty history. -/
def init (vh ch : ℚ) : CustomScroll where
  vh := vh
  ch := ch
  min := 0
  max := max (ch - vh) 0
  pos := 0
  vel := 0
  springTarget := 0
  state := .Idle
  lastY := 0
  lastMoveTime := 0
  moveHistory := []

/-- The events the source registers listeners for, plus `pointercancel`
(which the source does NOT listen to) and the per-frame animation tick.
`pointerdown`/`pointermove` carry the pointer's `clientY` and the value of
`performance.now()` at delivery. -/
inductive Event where
  | pointerdown (clientY now : ℚ)
  | pointermove (clientY now : ℚ)
  | pointerup
  | pointercancel
  | tick
deriving DecidableEq, Repr

/-- The `pointerdown` listener: enter `Drag`, zero the velocity, reset the
drag reference point and clear `moveHistory`. -/
def handlePointerDown (s : CustomScroll) (clientY now : ℚ) : CustomScroll :=
  { s with
      state := .Drag
      vel := 0
      lastY := clientY
      lastMoveTime := now
      moveHistory := [] }

/-- `moveHistory.push(m)` followed by `if (length > 5) shift()`: append at
the tail, drop the oldest entry once the length would exceed 5. -/
def pushHistory (h : List MoveRec) (m : MoveRec) : List MoveRec :=
  let h' := h ++ [m]
  if h'.length > 5 then h'.tail else h'

/-- The `pointermove` listener.  A no-op unless `state === "Drag"`;
otherwise `dy = clientY - lastY`, the position advances by `dy * 0.4` when
the pre-move position is outside `[min, max]` and by `dy` otherwise, and
`{dy, dt}` is appended to the history. -/
def handlePointerMove (s : CustomScroll) (clientY now : ℚ) : CustomScroll :=
  if s.state ≠ .Drag then s
  else
    let dy := clientY - s.lastY
    let pos' := if s.pos < s.min ∨ s.pos > s.max
      then s.pos + dy * (4 / 10)
      else s.pos + dy
    { s with
        lastY := clientY
        pos := pos'
        moveHistory := pushHistory s.moveHistory ⟨dy, now - s.lastMoveTime⟩
        lastMoveTime := now }

/-- `estimateVelocity()`: `(Σ dy / Σ dt) * 1000` when `Σ dt > 0`, else 0. -/
def estimateVelocity (h : List MoveRec) : ℚ :=
  let totalDy := (h.map MoveRec.dy).sum
  let totalDt := (h.map MoveRec.dt).sum
  if totalDt > 0 then totalDy / totalDt * 1000 else 0

/-- The `pointerup` listener: out of bounds ⇒ `Spring` toward the violated
bound; else a noticeable estimated velocity ⇒ `Decel` with the velocity
clamped to `±MAX_VEL`; else `Idle`.  Note the source never consults the
current `state` here. -/
def handlePointerUp (s : CustomScroll) : CustomScroll :=
  let velocity := estimateVelocity s.moveHistory
  if s.pos < s.min ∨ s.pos > s.max then
    { s with
        springTarget := if s.pos < s.min then s.min else s.max
        state := .Spring }
  else if |velocity| > STOP_VEL then
    { s with
        vel := max (min velocity MAX_VEL) (-MAX_VEL)
        state := .Decel }
  else
    { s with state := .Idle }

/-- The physics part of one `animate()` frame.  In `Decel`:
`pos += vel * (1/60)`, `vel *= FRICTION`, then the stop test
(`|vel| < STOP_VEL ⇒ Idle`) followed by the bounds test, which overrides
with `Spring` when the new position is out of bounds.  In `Spring`:
`delta = springTarget - pos`, `vel = delta * SPRING_K`, `pos += vel`, and
when `|delta| < 0.5` the position snaps exactly to `springTarget` and the
state becomes `Idle`.  `Drag` and `Idle` frames change nothing. -/
def tick (s : CustomScroll) : CustomScroll :=
  if s.state = .Decel then
    let pos1 := s.pos + s.vel * (1 / 60)
    let vel1 := s.vel * FRICTION
    let st1 : ScrollState := if |vel1| < STOP_VEL then .Idle else .Decel
    if pos1 < s.min ∨ pos1 > s.max then
      { s with
          pos := pos1
          vel := vel1
          springTarget := if pos1 < s.min then s.min else s.max
          state := .Spring }
    else
      { s with pos := pos1, vel := vel1, state := st1 }
  else if s.state = .Spring then
    let delta := s.springTarget - s.pos
    let vel1 := delta * SPRING_K
    let pos1 := s.pos + vel1
    if |delta| < 1 / 2 then
      { s with vel := vel1, pos := s.springTarget, state := .Idle }
    else
      { s with vel := vel1, pos := pos1 }
  else s

/-- Dispatch one event to the controller.  `pointercancel` has no listener
in the source, so it leaves the state untouched. -/
def step (s : CustomScroll) : Event → CustomScroll
  | .pointerdown y t => handlePointerDown s y t
  | .pointermove y t => handlePointerMove s y t
  | .pointerup => handlePointerUp s
  | .pointercancel => s
  | .tick => tick s

/-- Run a sequence of events from a state. -/
def run (s : CustomScroll) (es : List Event) : CustomScroll :=
  es.foldl step s

/-- A controller state is reachable when some event sequence produces it
from a freshly constructed controller. -/
def Reachable (s : CustomScroll) : Prop :=
  ∃ vh ch es, s = run (init vh ch) es

/-- Replay a list of `pointermove` events, each given as the pair
`(clientY, now)`, through the `pointermove` listener. -/
def runMoves (s : CustomScroll) : List (ℚ × ℚ) → CustomScroll
  | [] => s
  | (y, t) :: rest => runMoves (handlePointerMove s y t) rest

/-- The telescoping sum of pointer displacements of a move sequence,
starting from the reference coordinate `y0`: each move to coordinate `y`
contributes `y - y0` where `y0` is the previous coordinate. -/
def dispSum (y0 : ℚ) : List (ℚ × ℚ) → ℚ
  | [] => 0
  | (y, _) :: rest => (y - y0) + dispSum y rest

/-- Checks that every move of the sequence starts from an in-bounds
pre-move position (the condition under which the source applies the
undamped `pos += dy`). -/
def inBoundsRun : CustomScroll → List (ℚ × ℚ) → Bool
  | _, [] => true
  | s, (y, t) :: rest =>
      (decide (s.min ≤ s.pos) && decide (s.pos ≤ s.max))
        && inBoundsRun (handlePointerMove s y t) rest

/-- The inductive invariant of the controller: the bounds are as the
constructor sets them, the spring target is always one of the two bounds,
an `Idle` controller sits inside the bounds, and a `Drag` controller has
zero velocity. -/
def Inv (s : CustomScroll) : Prop :=
  s.min = 0 ∧ 0 ≤ s.max ∧
  (s.springTarget = s.min ∨ s.springTarget = s.max) ∧
  (s.state = .Idle → s.min ≤ s.pos ∧ s.pos ≤ s.max) ∧
  (s.state = .Drag → s.vel = 0)

/-- A drag that releases with estimated velocity 26/5 = 5.2 px/s (just
above `STOP_VEL`) and then coasts for one frame: the coast frame decays
the velocity to 4.94 < 5, so the controller parks in `Idle` with that
residual velocity still stored. -/
def residualEvents : List Event :=
  [.pointerdown 0 0, .pointermove (26 / 5) 1000, .pointerup, .tick]

/-- A drag released at `pos = -50` below `min = 0` whose history estimates
velocity 3000 px/s: the spec's example of a release that must spring, not
coast. -/
def releaseOutOfBounds : CustomScroll :=
  { vh := 500, ch := 1500, min := 0, max := 1000, pos := -50, vel := 0, springTarget := 0,
    state := .Drag, lastY := 0, lastMoveTime := 0, moveHistory := [⟨30, 10⟩] }

/-- A drag released in bounds whose history estimates velocity 3000 px/s:
the spec's example of clamping to `MAX_VEL = 2000`. -/
def releaseFast : CustomScroll :=
  { vh := 500, ch := 1500, min := 0, max := 1000, pos := 100, vel := 0, springTarget := 0,
    state := .Drag, lastY := 0, lastMoveTime := 0, moveHistory := [⟨30, 10⟩] }

/-- A coasting controller at `vel = 4`, below `STOP_VEL`: the spec's
example of a coast frame that stops. -/
def coastSlow : CustomScroll :=
  { vh := 500, ch := 1500, min := 0, max := 1000, pos := 100, vel := 4, springTarget := 0,
    state := .Decel, lastY := 0, lastMoveTime := 0, moveHistory := [] }

/-- A springing controller at `pos = 10` heading for `springTarget = 0`:
the spec's worked spring example. -/
def springTen : CustomScroll :=
  { vh := 500, ch := 1500, min := 0, max := 1000, pos := 10, vel := 0, springTarget := 0,
    state := .Spring, lastY := 0, lastMoveTime := 0, moveHistory := [] }

/-- A dragging controller at the reference point `lastY = 0`, in bounds. -/
def dragStart : CustomScroll :=
  { vh := 500, ch := 1500, min := 0, max := 1000, pos := 0, vel := 0, springTarget := 0,
    state := .Drag, lastY := 0, lastMoveTime := 0, moveHistory := [] }

/-- The state after `residualEvents` up to the move: dragging at 5.2 with
one history entry `{5.2, 1000}`. -/
def residAfterMove : CustomScroll :=
  { vh := 500, ch := 1500, min := 0, max := 1000, pos := 26 / 5, vel := 0, springTarget := 0,
    state := .Drag, lastY := 26 / 5, lastMoveTime := 1000, moveHistory := [⟨26 / 5, 1000⟩] }

/-- The state after the release of `residualEvents`: coasting at exactly
5.2 px/s, just above `STOP_VEL`. -/
def residAfterUp : CustomScroll :=
  { vh := 500, ch := 1500, min := 0, max := 1000, pos := 26 / 5, vel := 26 / 5, springTarget := 0,
    state := .Decel, lastY := 26 / 5, lastMoveTime := 1000, moveHistory := [⟨26 / 5, 1000⟩] }

/-- The state after the full `residualEvents` run: parked in `Idle` with
the residual velocity 4.94 still stored and the stale one-entry history. -/
def residIdle : CustomScroll :=
  { vh := 500, ch := 1500, min := 0, max := 1000, pos := 793 / 150, vel := 247 / 50,
    springTarget := 0, state := .Idle, lastY := 26 / 5, lastMoveTime := 1000,
    moveHistory := [⟨26 / 5, 1000⟩] }

/-- The three outputs `updateThumb()` computes from `vh`, `ch`, `pos` and
`max`: the thumb height, the scroll ratio and the thumb translation. -/
structure ThumbOut where
  thumbHeight : ℚ
  scrollRatio : ℚ
  thumbY : ℚ
deriving DecidableEq, Repr

/-- `updateThumb()` as a pure function of the fields it reads:
`ratio = vh / ch`, `thumbHeight = Math.max(vh * ratio, 20)`,
`maxThumbY = vh - thumbHeight`,
`scrollRatio = max > 0 ? pos / max : 0`, offset `maxThumbY * scrollRatio`. -/
def updateThumb (vh ch pos mx : ℚ) : ThumbOut :=
  let ratio := vh / ch
  let thumbHeight := max (vh * ratio) 20
  let maxThumbY := vh - thumbHeight
  let scrollRatio := if mx > 0 then pos / mx else 0
  ⟨thumbHeight, scrollRatio, maxThumbY * scrollRatio⟩

/-! ## General lemmas about the handlers -/

/-- The `pointermove` listener never changes the state tag. -/
theorem handlePointerMove_state (s : CustomScroll) (y t : ℚ) :
    (handlePointerMove s y t).state = s.state := by
  unfold handlePointerMove
  split_ifs <;> rfl

/-- Claim C1: on pointer up the controller decides the next state in
strict priority order: out of bounds ⇒ `Spring` toward the violated bound
regardless of the estimated velocity; otherwise `|v| > STOP_VEL` ⇒ `Decel`
with the velocity clamped into `[-MAX_VEL, MAX_VEL]`; otherwise `Idle`. -/
theorem pointerup_priority (s : CustomScroll) :
    (s.pos < s.min ∨ s.pos > s.max →
      (handlePointerUp s).state = .Spring ∧
      (handlePointerUp s).springTarget = (if s.pos < s.min then s.min else s.max) ∧
      (handlePointerUp s).vel = s.vel ∧ (handlePointerUp s).pos = s.pos) ∧
    (¬(s.pos < s.min ∨ s.pos > s.max) →
      |estimateVelocity s.moveHistory| > STOP_VEL →
      (handlePointerUp s).state = .Decel ∧
      (handlePointerUp s).vel
        = max (min (estimateVelocity s.moveHistory) MAX_VEL) (-MAX_VEL) ∧
      (handlePointerUp s).pos = s.pos) ∧
    (¬(s.pos < s.min ∨ s.pos > s.max) →
      ¬(|estimateVelocity s.moveHistory| > STOP_VEL) →
      (handlePointerUp s).state = .Idle ∧
      (handlePointerUp s).vel = s.vel ∧ (handlePointerUp s).pos = s.pos) := by
  refine ⟨fun h => ?_, fun h1 h2 => ?_, fun h1 h2 => ?_⟩ <;>
    simp [handlePointerUp, *]

/-- Witness for C1 at the spec's two release examples: releasing at
`pos = -50` with `minBound = 0` springs toward 0 even though the history
gives velocity 3000, and releasing in bounds with estimated velocity 3000
coasts with the velocity clamped to 2000. -/
theorem pointerup_priority_witness :
    (handlePointerUp releaseOutOfBounds).state = .Spring ∧
    (handlePointerUp releaseOutOfBounds).springTarget = 0 ∧
    (handlePointerUp releaseFast).state = .Decel ∧
    (handlePointerUp releaseFast).vel = 2000 := by
  have hA := (pointerup_priority releaseOutOfBounds).1
    (by norm_num [releaseOutOfBounds])
  have hB := (pointerup_priority releaseFast).2.1
    (by norm_num [releaseFast])
    (by norm_num [releaseFast, estimateVelocity, STOP_VEL, abs_of_nonneg])
  refine ⟨hA.1, ?_, hB.1, ?_⟩
  · rw [hA.2.1]; norm_num [releaseOutOfBounds]
  · rw [hB.2.1]
    norm_num [releaseFast, estimateVelocity, MAX_VEL, min_def, max_def]

/-- Claim C9: the indicator computation guards division by zero: with
`max = 0` the scroll ratio is 0 (never a non-finite value), with
`max > 0` it is `pos / max`, and the thumb height is never below 20. -/
theorem updateThumb_guard (vh ch pos mx : ℚ) :
    (mx = 0 → (updateThumb vh ch pos mx).scrollRatio = 0) ∧
    (0 < mx → (updateThumb vh ch pos mx).scrollRatio = pos / mx) ∧
    20 ≤ (updateThumb vh ch pos mx).thumbHeight := by
  unfold updateThumb
  refine ⟨fun h => ?_, fun h => ?_, le_max_right _ _⟩
  · simp [h]
  · simp [h]

/-- Witness for C9: content shorter than the viewport (`max = 0`) gives
scroll ratio 0; a scrollable page gives `pos / max`, and the thumb height
bound holds there. -/
theorem updateThumb_guard_witness :
    (updateThumb 500 400 7 0).scrollRatio = 0 ∧
    (updateThumb 500 1500 250 1000).scrollRatio = 250 / 1000 ∧
    20 ≤ (updateThumb 500 1500 250 1000).thumbHeight :=
  ⟨(updateThumb_guard 500 400 7 0).1 rfl,
   (updateThumb_guard 500 1500 250 1000).2.1 (by norm_num),
   (updateThumb_guard 500 1500 250 1000).2.2⟩

/-- Claim C2: a tick in `Decel` moves by `vel * (1/60)`, multiplies the
velocity by `FRICTION`, then runs the stop test on the decayed velocity
and lets the bounds test override it, so the tick never ends `Idle` while
the position is out of bounds. -/
theorem decel_tick (s : CustomScroll) (hs : s.state = .Decel) :
    (tick s).pos = s.pos + s.vel * (1 / 60) ∧
    (tick s).vel = s.vel * FRICTION ∧
    (tick s).state =
      (if s.pos + s.vel * (1 / 60) < s.min ∨ s.pos + s.vel * (1 / 60) > s.max then .Spring
        else if |s.vel * FRICTION| < STOP_VEL then .Idle else .Decel) ∧
    (s.pos + s.vel * (1 / 60) < s.min ∨ s.pos + s.vel * (1 / 60) > s.max →
      (tick s).springTarget
        = if s.pos + s.vel * (1 / 60) < s.min then s.min else s.max) ∧
    ((tick s).state = .Idle → s.min ≤ (tick s).pos ∧ (tick s).pos ≤ s.max) := by
  simp only [tick, hs]
  norm_num
  split_ifs with h1 h2 <;> simp_all <;> linarith [h1.1, h1.2]

/-- Witness for C2 at the spec's example: coasting with `vel = 4` (below
`STOP_VEL = 5`), the very next tick parks in `Idle`, moves the position by
exactly `4/60`, and ends inside the bounds. -/
theorem decel_tick_witness :
    (tick coastSlow).state = .Idle ∧
    (tick coastSlow).pos = 1501 / 15 ∧
    |(tick coastSlow).pos - coastSlow.pos| ≤ 4 / 60 ∧
    coastSlow.min ≤ (tick coastSlow).pos ∧ (tick coastSlow).pos ≤ coastSlow.max := by
  have h := decel_tick coastSlow rfl
  have hst : (tick coastSlow).state = .Idle := by
    rw [h.2.2.1]
    norm_num [coastSlow, FRICTION, STOP_VEL, abs_of_nonneg]
  have hb := h.2.2.2.2 hst
  refine ⟨hst, ?_, ?_, hb.1, hb.2⟩
  · rw [h.1]; norm_num [coastSlow]
  · rw [h.1]; norm_num [coastSlow, abs_of_nonneg]

/-- Claim C3: a tick in `Spring` sets `vel = (springTarget - pos) * SPRING_K`
and moves by it; when the pre-move gap `|delta|` is below 0.5 the position
snaps exactly to the target and the state becomes `Idle`; every tick keeps
the position between its old value and the target and shrinks the gap by
the factor 17/20. -/
theorem spring_tick (s : CustomScroll) (hs : s.state = .Spring) :
    (tick s).vel = (s.springTarget - s.pos) * SPRING_K ∧
    (|s.springTarget - s.pos| < 1 / 2 →
      (tick s).pos = s.springTarget ∧ (tick s).state = .Idle) ∧
    (¬(|s.springTarget - s.pos| < 1 / 2) →
      (tick s).pos = s.pos + (s.springTarget - s.pos) * SPRING_K ∧
      (tick s).state = .Spring) ∧
    (s.springTarget ≤ s.pos → s.springTarget ≤ (tick s).pos ∧ (tick s).pos ≤ s.pos) ∧
    (s.pos ≤ s.springTarget → s.pos ≤ (tick s).pos ∧ (tick s).pos ≤ s.springTarget) ∧
    |(tick s).pos - s.springTarget| ≤ 17 / 20 * |s.pos - s.springTarget| := by
  simp only [tick, hs]
  norm_num [SPRING_K]
  split_ifs with h1 <;> simp_all
  refine ⟨fun h => ⟨by linarith, by linarith⟩, fun h => by linarith, ?_⟩
  have key : s.pos + (s.springTarget - s.pos) * (3 / 20) - s.springTarget
      = 17 / 20 * (s.pos - s.springTarget) := by ring
  rw [key, abs_mul, abs_of_pos (by norm_num : (0:ℚ) < 17 / 20)]

/-- Witness for C3 at the spec's example: springing from `pos = 10` toward
`springTarget = 0`, one tick lands exactly on `8.5`, stays in `Spring`,
remains between target and start, and shrinks the gap to 17/20 of 10. -/
theorem spring_tick_witness :
    (tick springTen).pos = 17 / 2 ∧
    (tick springTen).state = .Spring ∧
    springTen.springTarget ≤ (tick springTen).pos ∧
    (tick springTen).pos ≤ springTen.pos ∧
    |(tick springTen).pos - springTen.springTarget|
      ≤ 17 / 20 * |springTen.pos - springTen.springTarget| := by
  have h := spring_tick springTen rfl
  have hgap : ¬(|springTen.springTarget - springTen.pos| < 1 / 2) := by
    norm_num [springTen, abs_sub_comm, abs_of_nonneg]
  have h3 := h.2.2.1 hgap
  have hmono := h.2.2.2.1 (by norm_num [springTen])
  refine ⟨?_, h3.2, hmono.1, hmono.2, h.2.2.2.2.2⟩
  rw [h3.1]; norm_num [springTen, SPRING_K]

/-- Auxiliary induction for C4: over any move sequence whose pre-move
positions all stay within the bounds, the drag handler adds every raw
displacement undamped and stays in `Drag`. -/
theorem runMoves_sum (ms : List (ℚ × ℚ)) : ∀ s : CustomScroll, s.state = .Drag →
    inBoundsRun s ms = true →
    (runMoves s ms).pos = s.pos + dispSum s.lastY ms ∧ (runMoves s ms).state = .Drag := by
  induction ms with
  | nil => intro s hs _; simp [runMoves, dispSum, hs]
  | cons m rest ih =>
    obtain ⟨y, t⟩ := m
    intro s hs hb
    simp only [inBoundsRun, Bool.and_eq_true, decide_eq_true_eq] at hb
    obtain ⟨⟨hmin, hmax⟩, hrest⟩ := hb
    have hnot : ¬(s.pos < s.min ∨ s.pos > s.max) := by push_neg; exact ⟨hmin, hmax⟩
    have hpos : (handlePointerMove s y t).pos = s.pos + (y - s.lastY) := by
      simp [handlePointerMove, hs, hnot]
    have hlast : (handlePointerMove s y t).lastY = y := by
      simp [handlePointerMove, hs]
    have hst : (handlePointerMove s y t).state = .Drag := by
      rw [handlePointerMove_state, hs]
    have hih := ih (handlePointerMove s y t) hst hrest
    refine ⟨?_, ?_⟩
    · rw [runMoves, hih.1, hpos, hlast, dispSum]; ring
    · rw [runMoves, hih.2]

/-- Claim C4: while dragging, a move displaces the position by the raw
pointer displacement when the pre-move position is in bounds and by 0.4
times it when out of bounds; hence an all-in-bounds move sequence moves
the position by exactly the sum of the displacements. -/
theorem drag_moves (s : CustomScroll) (y t : ℚ) (ms : List (ℚ × ℚ))
    (hs : s.state = .Drag) :
    (s.min ≤ s.pos ∧ s.pos ≤ s.max →
      (handlePointerMove s y t).pos = s.pos + (y - s.lastY)) ∧
    (s.pos < s.min ∨ s.pos > s.max →
      (handlePointerMove s y t).pos = s.pos + (y - s.lastY) * (4 / 10)) ∧
    (inBoundsRun s ms = true →
      (runMoves s ms).pos = s.pos + dispSum s.lastY ms) := by
  refine ⟨fun h => ?_, fun h => ?_, fun h => (runMoves_sum ms s hs h).1⟩
  · have hnot : ¬(s.pos < s.min ∨ s.pos > s.max) := by push_neg; exact h
    simp [handlePointerMove, hs, hnot]
  · simp [handlePointerMove, hs, h]

/-- Witness for C4: two in-bounds moves (to y = 10 then y = 7) displace
the position by exactly 10 + (7 - 10) = 7, and a single move of +10 while
out of bounds at -50 displaces by 10 * 0.4 = 4. -/
theorem drag_moves_witness :
    (runMoves dragStart [(10, 5), (7, 9)]).pos = 7 ∧
    (handlePointerMove releaseOutOfBounds 10 5).pos = -46 := by
  have h1 := (drag_moves dragStart 0 0 [(10, 5), (7, 9)] rfl).2.2
    (by norm_num [inBoundsRun, handlePointerMove, pushHistory, dragStart])
  have h2 := (drag_moves releaseOutOfBounds 10 5 [] rfl).2.1
    (by norm_num [releaseOutOfBounds])
  constructor
  · rw [h1]; norm_num [dragStart, dispSum]
  · rw [h2]; norm_num [releaseOutOfBounds]

/-- Counterexample for C5 as stated: on the single-entry history
`[{10, 16.7}]` the estimator returns exactly 100000/167 = 598.80..., which
is not approximately 599.4 (it differs from 599.4 by more than 0.5). -/
theorem estimateVelocity_not_599 :
    estimateVelocity [⟨10, 167 / 10⟩] = 100000 / 167 ∧
    ¬(|estimateVelocity [⟨10, 167 / 10⟩] - 5994 / 10| ≤ 1 / 2) := by
  constructor
  · norm_num [estimateVelocity]
  · norm_num [estimateVelocity, abs_of_nonpos]

/-- Claim C5 (amended): `estimateVelocity()` returns
`(Σ dy / Σ dt) * 1000` when the summed elapsed time is positive and 0
otherwise; the empty history gives 0 and `[{10, 16.7}]` gives
100000/167 ≈ 598.8. -/
theorem estimateVelocity_spec (h : List MoveRec) :
    (0 < (h.map MoveRec.dt).sum →
      estimateVelocity h = (h.map MoveRec.dy).sum / (h.map MoveRec.dt).sum * 1000) ∧
    ((h.map MoveRec.dt).sum ≤ 0 → estimateVelocity h = 0) ∧
    estimateVelocity [] = 0 ∧
    estimateVelocity [⟨10, 167 / 10⟩] = 100000 / 167 := by
  refine ⟨fun hp => ?_, fun hn => ?_, by norm_num [estimateVelocity],
    by norm_num [estimateVelocity]⟩
  · simp [estimateVelocity, hp]
  · simp [estimateVelocity, not_lt.2 hn]

/-- Witness for C5 (amended) on the spec's single-entry history. -/
theorem estimateVelocity_spec_witness :
    estimateVelocity [⟨10, 167 / 10⟩] = (10 : ℚ) / (167 / 10) * 1000 := by
  have h := (estimateVelocity_spec [⟨10, 167 / 10⟩]).1 (by norm_num)
  simpa using h

theorem handlePointerMove_min (s : CustomScroll) (y t : ℚ) :
    (handlePointerMove s y t).min = s.min := by
  unfold handlePointerMove; split_ifs <;> rfl

theorem handlePointerMove_max (s : CustomScroll) (y t : ℚ) :
    (handlePointerMove s y t).max = s.max := by
  unfold handlePointerMove; split_ifs <;> rfl

theorem handlePointerMove_vel (s : CustomScroll) (y t : ℚ) :
    (handlePointerMove s y t).vel = s.vel := by
  unfold handlePointerMove; split_ifs <;> rfl

theorem handlePointerMove_springTarget (s : CustomScroll) (y t : ℚ) :
    (handlePointerMove s y t).springTarget = s.springTarget := by
  unfold handlePointerMove; split_ifs <;> rfl

theorem handlePointerMove_notDrag (s : CustomScroll) (y t : ℚ) (h : s.state ≠ .Drag) :
    handlePointerMove s y t = s := by
  unfold handlePointerMove; rw [if_pos h]

theorem tick_decel (s : CustomScroll) (hD : s.state = .Decel) :
    tick s =
      if s.pos + s.vel * (1 / 60) < s.min ∨ s.pos + s.vel * (1 / 60) > s.max then
        { s with
            pos := s.pos + s.vel * (1 / 60), vel := s.vel * FRICTION,
            springTarget := if s.pos + s.vel * (1 / 60) < s.min then s.min else s.max,
            state := .Spring }
      else
        { s with
            pos := s.pos + s.vel * (1 / 60), vel := s.vel * FRICTION,
            state := if |s.vel * FRICTION| < STOP_VEL then .Idle else .Decel } := by
  unfold tick
  rw [if_pos hD]

theorem tick_spring (s : CustomScroll) (hS : s.state = .Spring) :
    tick s =
      if |s.springTarget - s.pos| < 1 / 2 then
        { s with
            vel := (s.springTarget - s.pos) * SPRING_K, pos := s.springTarget,
            state := .Idle }
      else
        { s with
            vel := (s.springTarget - s.pos) * SPRING_K,
            pos := s.pos + (s.springTarget - s.pos) * SPRING_K } := by
  unfold tick
  rw [if_neg (by rw [hS]; simp), if_pos hS]

theorem tick_rest (s : CustomScroll) (hD : s.state ≠ .Decel) (hS : s.state ≠ .Spring) :
    tick s = s := by
  unfold tick
  rw [if_neg hD, if_neg hS]

theorem inv_init (vh ch : ℚ) : Inv (init vh ch) := by
  refine ⟨rfl, le_max_right _ _, Or.inl rfl, fun _ => ⟨le_refl 0, le_max_right _ _⟩,
    fun h => by simp [init] at h⟩

theorem inv_step (s : CustomScroll) (e : Event) (hi : Inv s) : Inv (step s e) := by
  obtain ⟨hmin, hmax, hsp, hidle, hdrag⟩ := hi
  cases e with
  | pointerdown y t =>
      exact ⟨hmin, hmax, hsp, fun h => by simp [step, handlePointerDown] at h, fun _ => rfl⟩
  | pointermove y t =>
      show Inv (handlePointerMove s y t)
      refine ⟨by rw [handlePointerMove_min]; exact hmin,
        by rw [handlePointerMove_max]; exact hmax,
        by rw [handlePointerMove_springTarget, handlePointerMove_min, handlePointerMove_max]; exact hsp,
        fun h => ?_, fun h => ?_⟩
      · rw [handlePointerMove_state] at h
        have hid := handlePointerMove_notDrag s y t (by rw [h]; simp)
        rw [hid]
        exact hidle h
      · rw [handlePointerMove_state] at h
        rw [handlePointerMove_vel]
        exact hdrag h
  | pointerup =>
      show Inv (handlePointerUp s)
      by_cases h1 : s.pos < s.min ∨ s.pos > s.max
      · by_cases h2 : s.pos < s.min
        · have he : handlePointerUp s =
              { s with springTarget := s.min, state := .Spring } := by
            simp [handlePointerUp, h1, h2]
          rw [he]
          exact ⟨hmin, hmax, Or.inl rfl, fun h => by simp at h, fun h => by simp at h⟩
        · have hgt : s.pos > s.max := h1.resolve_left h2
          have he : handlePointerUp s =
              { s with springTarget := s.max, state := .Spring } := by
            simp [handlePointerUp, h2, hgt]
          rw [he]
          exact ⟨hmin, hmax, Or.inr rfl, fun h => by simp at h, fun h => by simp at h⟩
      · by_cases hv : |estimateVelocity s.moveHistory| > STOP_VEL
        · have he : handlePointerUp s =
              { s with
                  vel := max (min (estimateVelocity s.moveHistory) MAX_VEL) (-MAX_VEL),
                  state := .Decel } := by
            simp [handlePointerUp, h1, hv]
          rw [he]
          exact ⟨hmin, hmax, hsp, fun h => by simp at h, fun h => by simp at h⟩
        · have he : handlePointerUp s = { s with state := .Idle } := by
            simp [handlePointerUp, h1, hv]
          rw [he]
          push_neg at h1
          exact ⟨hmin, hmax, hsp, fun _ => h1, fun h => by simp at h⟩
  | pointercancel =>
      exact ⟨hmin, hmax, hsp, hidle, hdrag⟩
  | tick =>
      show Inv (tick s)
      by_cases hD : s.state = .Decel
      · rw [tick_decel s hD]
        by_cases hOOB : s.pos + s.vel * (1 / 60) < s.min ∨ s.pos + s.vel * (1 / 60) > s.max
        · rw [if_pos hOOB]
          refine ⟨hmin, hmax, ?_, fun h => by simp at h, fun h => by simp at h⟩
          show (if s.pos + s.vel * (1 / 60) < s.min then s.min else s.max) = s.min ∨
            (if s.pos + s.vel * (1 / 60) < s.min then s.min else s.max) = s.max
          split_ifs <;> simp
        · rw [if_neg hOOB]
          push_neg at hOOB
          refine ⟨hmin, hmax, hsp, fun _ => hOOB, fun h => ?_⟩
          have h2 : (if |s.vel * FRICTION| < STOP_VEL then ScrollState.Idle
            else ScrollState.Decel) = ScrollState.Drag := h
          split_ifs at h2
      · by_cases hS : s.state = .Spring
        · rw [tick_spring s hS]
          by_cases hsnap : |s.springTarget - s.pos| < 1 / 2
          · rw [if_pos hsnap]
            refine ⟨hmin, hmax, hsp, fun _ => ?_, fun h => by simp at h⟩
            show s.min ≤ s.springTarget ∧ s.springTarget ≤ s.max
            rcases hsp with h | h
            · exact ⟨le_of_eq h.symm, by rw [h, hmin]; exact hmax⟩
            · exact ⟨by rw [h, hmin]; exact hmax, le_of_eq h⟩
          · rw [if_neg hsnap]
            refine ⟨hmin, hmax, hsp, fun h => ?_, fun h => ?_⟩
            · exact absurd (hS.symm.trans h) (by simp)
            · exact absurd (hS.symm.trans h) (by simp)
        · rw [tick_rest s hD hS]
          exact ⟨hmin, hmax, hsp, hidle, hdrag⟩

theorem inv_run (es : List Event) : ∀ s : CustomScroll, Inv s → Inv (run s es) := by
  induction es with
  | nil => intro s h; exact h
  | cons e rest ih => intro s h; exact ih (step s e) (inv_step s e h)

theorem reachable_inv (s : CustomScroll) (hr : Reachable s) : Inv s := by
  obtain ⟨vh, ch, es, rfl⟩ := hr
  exact inv_run es (init vh ch) (inv_init vh ch)

/-- Claim C6: in every reachable controller state, `Idle` implies the
position lies within `[min, max]`: every path into `Idle` (low-velocity
release, coasting stop with the bounds override, spring snap) establishes
it and nothing moves the position while `Idle`. -/
theorem idle_in_bounds (s : CustomScroll) (hr : Reachable s) (hs : s.state = .Idle) :
    s.min ≤ s.pos ∧ s.pos ≤ s.max :=
  (reachable_inv s hr).2.2.2.1 hs

/-- Witness for C6 at the freshly constructed controller, which is
reachable, `Idle`, and sits at `pos = 0 ∈ [0, 1000]`. -/
theorem idle_in_bounds_witness :
    (init 500 1500).min ≤ (init 500 1500).pos ∧ (init 500 1500).pos ≤ (init 500 1500).max :=
  idle_in_bounds (init 500 1500) ⟨500, 1500, [], rfl⟩ rfl

/-- Evaluates the four `residualEvents` one listener call at a time: the
run ends parked in `Idle` with `vel = 247/50 = 4.94` still stored. -/
theorem run_residual :
    run (init 500 1500) residualEvents = residIdle := by
  have h1 : step (init 500 1500) (.pointerdown 0 0) = dragStart := by
    norm_num [step, handlePointerDown, init, dragStart, max_def]
  have h2 : step dragStart (.pointermove (26 / 5) 1000) = residAfterMove := by
    norm_num [step, handlePointerMove, pushHistory, dragStart, residAfterMove]
  have h3 : step residAfterMove .pointerup = residAfterUp := by
    norm_num [step, handlePointerUp, estimateVelocity, STOP_VEL, MAX_VEL,
      residAfterMove, residAfterUp, abs_of_nonneg, min_def, max_def]
  have h4 : step residAfterUp .tick = residIdle := by
    norm_num [step, tick, FRICTION, STOP_VEL, residAfterUp, residIdle, abs_of_nonneg]
  show step (step (step (step (init 500 1500) (.pointerdown 0 0))
    (.pointermove (26 / 5) 1000)) .pointerup) .tick = residIdle
  rw [h1, h2, h3, h4]

/-- Counterexample for C8 as stated: a reachable state (drag released at
5.2 px/s, one coast frame) is `Idle` yet stores the non-zero residual
velocity 4.94, because the `Decel` → `Idle` transition never resets
`vel`. -/
theorem idle_nonzero_vel :
    Reachable (run (init 500 1500) residualEvents) ∧
    (run (init 500 1500) residualEvents).state = .Idle ∧
    (run (init 500 1500) residualEvents).vel ≠ 0 := by
  refine ⟨⟨500, 1500, residualEvents, rfl⟩, ?_, ?_⟩
  · rw [run_residual]; rfl
  · rw [run_residual]
    norm_num [residIdle]

/-- Claim C8 (amended): in every reachable state, `Drag` implies
`vel = 0` (pointer down zeroes it and nothing during a drag writes it);
in `Idle` the velocity may keep a stale non-zero value, since neither the
coasting stop nor the spring snap resets it. -/
theorem drag_vel_zero (s : CustomScroll) (hr : Reachable s) (hs : s.state = .Drag) :
    s.vel = 0 :=
  (reachable_inv s hr).2.2.2.2 hs

/-- Witness for C8 (amended): right after a pointer down the controller is
reachable, dragging, and has `vel = 0`. -/
theorem drag_vel_zero_witness :
    (run (init 500 1500) [.pointerdown 0 0]).vel = 0 :=
  drag_vel_zero _ ⟨500, 1500, [.pointerdown 0 0], rfl⟩ rfl

/-- Claim C7 evidence: the source registers no `pointercancel` listener,
so a cancelled session changes nothing at all — in particular a cancel
during a drag leaves the controller stuck in `Drag`, it does not run the
pointer-up release decision. -/
theorem pointercancel_ignored :
    (∀ s : CustomScroll, step s .pointercancel = s) ∧
    (run (init 500 1500) [.pointerdown 0 0, .pointercancel]).state = .Drag :=
  ⟨fun _ => rfl, rfl⟩

/-- Claim C10: the pointer-up listener never reads the current state tag,
so its release decision is identical from any state; concretely, the
reachable `Idle` state left by `residualEvents` still holds a stale
history estimating 5.2 px/s, and a stray pointer up moves it straight to
`Decel` with no intervening drag. -/
theorem pointerup_unguarded :
    (∀ (s : CustomScroll) (σ : ScrollState),
      handlePointerUp { s with state := σ } = handlePointerUp s) ∧
    (run (init 500 1500) residualEvents).state = .Idle ∧
    (step (run (init 500 1500) residualEvents) .pointerup).state = .Decel := by
  refine ⟨fun s σ => ?_, by rw [run_residual]; rfl, ?_⟩
  · cases s
    unfold handlePointerUp
    split_ifs <;> rfl
  · rw [run_residual]
    norm_num [step, handlePointerUp, estimateVelocity, STOP_VEL, residIdle,
      abs_of_nonneg]

end Scroll
